import Mathlib

/-!
Verification of the Symbol & Command Mapping Compiler of the tylax
repository, shallowly embedded from `tools/gen_maps.py`, together with the
backend-invocation layer of the comparison harness `tools/compare.py`.

Python dictionaries are embedded as association lists: a dict literal (or a
sequence of item assignments) is a raw `List (String × α)` on which
`pyDict` realises Python's construction semantics (first-occurrence
position, last written value wins).  `sorted(d.items())` is embedded by
`sortByKey` (the keys of every dict are unique, so sorting pairs
lexicographically coincides with sorting by key alone, and every correct
comparison sort produces the same list).  Machine strings are Lean
`String`s, compared by code point exactly as Python compares `str`.
-/

/-! ## Python primitives -/

set_option maxRecDepth 8192 in
/-- Characters stripped by Python `str.strip()` with no argument, i.e. the
characters for which `str.isspace()` holds (also the set matched by the
regex class `\s` on `str` patterns). -/
def pyWsChars : List Char :=
  [' ', '\t', '\n', '\r', '\x0b', '\x0c', '\x1c', '\x1d', '\x1e', '\x1f',
   '\x85', '\xa0', ' ', ' ', ' ', ' ', ' ',
   ' ', ' ', ' ', ' ', ' ', ' ', ' ',
   ' ', ' ', ' ', ' ', '　']

/-- Whitespace test used by `str.strip()` and by the `\s` regex class. -/
def isPyWs (c : Char) : Bool := pyWsChars.contains c

/-- Embedding of Python `str.strip()` on the character list of a string:
drop whitespace from the front, then from the back. -/
def pyStripList (l : List Char) : List Char :=
  ((l.dropWhile isPyWs).reverse.dropWhile isPyWs).reverse

/-- Embedding of Python `str.strip()`. -/
def pyStrip (s : String) : String := String.mk (pyStripList s.data)

/-- Embedding of Python `s.startswith(pre)`. -/
def pyStartsWith (s pre : String) : Bool :=
  s.data.take pre.data.length == pre.data

/-- Value associated with key `k` in an association list when the LAST
binding wins — exactly the value `d[k]` of the Python dict built from the
listed bindings. -/
def rawLookupLast {α : Type} (k : String) (l : List (String × α)) : Option α :=
  l.foldl (fun acc p => if p.1 = k then some p.2 else acc) none

/-- Python `d[k] = v` on a dict represented as a key-unique association
list: an existing key keeps its position and gets the new value, a new key
is appended at the end. -/
def dictInsert {α : Type} (k : String) (v : α) : List (String × α) → List (String × α)
  | [] => [(k, v)]
  | p :: rest => if p.1 = k then (k, v) :: rest else p :: dictInsert k v rest

/-- Python `d.update(more)`: insert the bindings of `more` in order into
`d` (last write wins). -/
def pyUpdate {α : Type} (d more : List (String × α)) : List (String × α) :=
  more.foldl (fun acc p => dictInsert p.1 p.2 acc) d

/-- The Python dict built from a literal listing the given bindings in
order (duplicate keys silently resolve to the last value). -/
def pyDict {α : Type} (l : List (String × α)) : List (String × α) :=
  pyUpdate [] l

/-- Python `k in d` membership test for a dict. -/
def containsKey {α : Type} (k : String) (l : List (String × α)) : Bool :=
  l.any (fun p => p.1 == k)

/-- Ordering of dict items by key, the order produced by Python
`sorted(d.items())` on a key-unique dict. -/
def keyLE {α : Type} (a b : String × α) : Prop := a.1 ≤ b.1

instance {α : Type} : DecidableRel (@keyLE α) :=
  fun a b => inferInstanceAs (Decidable (a.1 ≤ b.1))

instance {α : Type} : IsTotal (String × α) keyLE :=
  ⟨fun a b => le_total a.1 b.1⟩

instance {α : Type} : IsTrans (String × α) keyLE :=
  ⟨fun _ _ _ h1 h2 => le_trans h1 h2⟩

/-- Embedding of Python `sorted(d.items())` for a key-unique dict `d`. -/
def sortByKey {α : Type} (l : List (String × α)) : List (String × α) :=
  List.insertionSort keyLE l

/-! ## escape_rust_string (gen_maps.py lines 266-268) -/

/-- Python `s.replace(c, r)` for a single-character pattern `c`. -/
def pyReplaceChar (c : Char) (r : List Char) : List Char → List Char
  | [] => []
  | a :: rest =>
    if a = c then r ++ pyReplaceChar c r rest else a :: pyReplaceChar c r rest

/-- Embedding of `escape_rust_string`:
`s.replace('\\', '\\\\').replace('"', '\\"')` on the character list. -/
def escape_rust_string (s : List Char) : List Char :=
  pyReplaceChar '"' ['\\', '"'] (pyReplaceChar '\\' ['\\', '\\'] s)

/-- String-level wrapper for `escape_rust_string`. -/
def escS (s : String) : String := String.mk (escape_rust_string s.data)

/-- The Rust string literal emitted for a token: opening quote, escaped
body, closing quote. -/
def rustStrLit (s : String) : String := "\"" ++ escS s ++ "\""

/-- Modelled from the spec: re-parsing an emitted Rust string literal body
up to its closing quote, following Rust lexical rules for the escape
sequences `\\` and `\"` (the reference converter of the emitted text is
the Rust compiler, which is not part of this repository).  Returns the
decoded value and the text after the closing quote; `none` on an
unterminated literal or an escape other than backslash/quote. -/
def litBody : List Char → Option (List Char × List Char)
  | [] => none
  | c :: rest =>
    if c = '"' then some ([], rest)
    else if c = '\\' then
      match rest with
      | [] => none
      | e :: rest2 =>
        if e = '\\' || e = '"' then
          (litBody rest2).map (fun p => (e :: p.1, p.2))
        else none
    else (litBody rest).map (fun p => (c :: p.1, p.2))

/-- Modelled from the spec: parse a complete Rust string literal token (no
text may remain after the closing quote), recovering the literal value. -/
def parseRustStringLit (l : List Char) : Option (List Char) :=
  match l with
  | [] => none
  | c :: rest =>
    if c = '"' then
      match litBody rest with
      | some (v, []) => some v
      | _ => none
    else none

/-! ## Compiled forward table (gen_maps.py generate_rust_code, lines 270-342) -/

/-- Argument shape of a generated `CmdShape`: `ArgPattern::None` or
`ArgPattern::FixedLenTerm { len: n }`. -/
inductive ArgSpec where
  | noArgs : ArgSpec
  | fixedLen : Nat → ArgSpec
deriving DecidableEq

/-- A generated `CommandSpecItem`: a command shape or an environment
shape, each with an argument pattern and an optional alias. -/
inductive SpecItem where
  | cmd : ArgSpec → Option String → SpecItem
  | env : ArgSpec → Option String → SpecItem
deriving DecidableEq

/-- Fixed structural entry for `typstcite` (gen_maps.py lines 313-316). -/
def tyEntry : String × SpecItem :=
  ("typstcite", .cmd (.fixedLen 1) (some "__typstcite__"))

/-- Fixed structural entry for the `aligned` environment (gen_maps.py
lines 319-323). -/
def alignedEntry : String × SpecItem :=
  ("aligned", .env .noArgs none)

/-- Zero-argument alias entries generated from the symbol dict `S` (gen_maps.py
lines 299-310): iterate `sorted(S.items())`, skip empty keys or values,
skip names present in the arity dict `A`. -/
def symEntries (S : List (String × String)) (A : List (String × Nat)) :
    List (String × SpecItem) :=
  (sortByKey S).filterMap fun p =>
    if p.1 = "" ∨ p.2 = "" then none
    else if containsKey p.1 A then none
    else some (p.1, .cmd .noArgs (some p.2))

/-- Arity entries generated from the arity dict `A` (gen_maps.py lines
329-336): iterate `sorted(A.items())`, skip `typstcite`. -/
def arityEntries (A : List (String × Nat)) : List (String × SpecItem) :=
  (sortByKey A).filterMap fun p =>
    if p.1 = "typstcite" then none
    else some (p.1, .cmd (.fixedLen p.2) none)

/-- The full sequence of `m.insert` calls emitted into `TEX_COMMAND_SPEC`,
in emission order: sorted symbol entries, the two structural entries, then
sorted arity entries. -/
def fwdEntries (S : List (String × String)) (A : List (String × Nat)) :
    List (String × SpecItem) :=
  symEntries S A ++ [tyEntry, alignedEntry] ++ arityEntries A

/-- Entries of the emitted `TYPST_TO_TEX` phf map (gen_maps.py lines
354-359): iterate `sorted(R.items())`, skip empty keys or values. -/
def reverseEntries (R : List (String × String)) : List (String × String) :=
  (sortByKey R).filterMap fun p =>
    if p.1 = "" ∨ p.2 = "" then none else some p

/-! ## Emitted text (gen_maps.py lines 277-365) -/

/-- Rendered `ArgPattern` expression. -/
def argPatternText : ArgSpec → String
  | .noArgs => "ArgPattern::None"
  | .fixedLen n => "ArgPattern::FixedLenTerm \x7b len: " ++ toString n ++ " \x7d"

/-- Rendered `alias:` field value. -/
def aliasText : Option String → String
  | some a => "Some(" ++ rustStrLit a ++ ".to_string())"
  | none => "None"

/-- The source lines emitted for one forward-table entry. -/
def entryLines : String × SpecItem → List String
  | (n, .cmd args al) =>
    [ "        m.insert(" ++ rustStrLit n ++
        ".to_string(), CommandSpecItem::Cmd(CmdShape \x7b",
      "            args: ArgShape::Right \x7b pattern: " ++
        argPatternText args ++ " \x7d,",
      "            alias: " ++ aliasText al ++ ",",
      "        \x7d));" ]
  | (n, .env _ _) =>
    [ "        m.insert(" ++ rustStrLit n ++
        ".to_string(), CommandSpecItem::Env(mitex_spec::EnvShape \x7b",
      "            args: ArgPattern::None,",
      "            ctx_feature: mitex_spec::ContextFeature::None,",
      "            alias: None,",
      "        \x7d));" ]

/-- The source line emitted for one reverse-map entry. -/
def revLine (p : String × String) : String :=
  "    " ++ rustStrLit p.1 ++ " => " ++ rustStrLit p.2 ++ ","

/-- The emitted banner ruler line: `//` and 77 equals signs. -/
def rulerLine : String := "// " ++ String.mk (List.replicate 77 '=')

/-- The fixed lines preceding the forward-table entries. -/
def headerLines : List String :=
  [ "// Generated by tools/gen_maps.py",
    "// This file contains static symbol mappings from tex2typst project",
    "// Do not edit manually - regenerate using: python tools/gen_maps.py",
    "",
    "use mitex_spec::\x7bCommandSpec, CommandSpecItem, CmdShape, ArgShape, ArgPattern\x7d;",
    "use fxhash::FxHashMap;",
    "use lazy_static::lazy_static;",
    "use phf::phf_map;",
    "",
    rulerLine,
    "// TEX_COMMAND_SPEC: Runtime-constructed CommandSpec for mitex parser",
    "// Uses lazy_static because CommandSpec requires runtime construction",
    rulerLine,
    "",
    "lazy_static! \x7b",
    "    /// LaTeX command specification for Mitex",
    "    pub static ref TEX_COMMAND_SPEC: CommandSpec = \x7b",
    "        let mut m = FxHashMap::default();" ]

/-- The fixed lines between the forward table and the reverse map. -/
def midLines : List String :=
  [ "",
    "        CommandSpec::new(m)",
    "    \x7d;",
    "\x7d",
    "",
    rulerLine,
    "// TYPST_TO_TEX: Compile-time perfect hash map for Typst -> LaTeX conversion",
    "// Uses phf for O(1) lookup with zero runtime initialization cost",
    rulerLine,
    "",
    "/// Typst to LaTeX symbol mapping (compile-time perfect hash)",
    "pub static TYPST_TO_TEX: phf::Map<&\x27static str, &\x27static str> = phf_map! \x7b" ]

/-- Embedding of `generate_rust_code`: the complete emitted output text as
a function of the three catalogs (symbol dict `S`, arity dict `A`, reverse
dict `R`).  The Python function reads the module-level dicts; it is
parameterised here because the importer may rebind the symbol dict. -/
def generateRustCode (S : List (String × String)) (A : List (String × Nat))
    (R : List (String × String)) : String :=
  String.intercalate "\n"
    (headerLines
      ++ (symEntries S A).flatMap entryLines
      ++ [tyEntry, alignedEntry].flatMap entryLines
      ++ ["", "        // Commands with required arguments"]
      ++ (arityEntries A).flatMap entryLines
      ++ midLines
      ++ (reverseEntries R).map revLine
      ++ ["\x7d;"])

/-! ## External catalog importer (gen_maps.py parse_map_ts, lines 367-385) -/

/-- Attempt to match one literal-pair extraction pattern (either
`\['([^']*)',\s*'([^']*)'\]` for `q = '\x27'` or its double-quote variant)
at the very start of the text.  The pattern pieces are deterministic:
each greedy `[^q]*` runs to the next quote, `\s*` runs to the next
non-whitespace, and each following literal character either matches or the
whole attempt fails.  Returns the two captured groups and the rest of the
text after the match. -/
def matchPairAt (q : Char) (l : List Char) : Option ((List Char × List Char) × List Char) :=
  match l with
  | '[' :: c0 :: r1 =>
    if c0 = q then
      let k := r1.takeWhile (fun a => a ≠ q)
      match r1.dropWhile (fun a => a ≠ q) with
      | _ :: r2 =>
        match r2 with
        | ',' :: r3 =>
          match r3.dropWhile isPyWs with
          | c1 :: r4 =>
            if c1 = q then
              let v := r4.takeWhile (fun a => a ≠ q)
              match r4.dropWhile (fun a => a ≠ q) with
              | _ :: r5 =>
                match r5 with
                | ']' :: r6 => some ((k, v), r6)
                | _ => none
              | [] => none
            else none
          | [] => none
        | _ => none
      | [] => none
    else none
  | _ => none

/-- Fuelled scan implementing `re.finditer`: try the pattern at each
position from left to right, and continue after the end of every match
(matches are non-overlapping).  Every step consumes at least one
character, so fuel equal to the text length never runs out. -/
def findAllAux (q : Char) : Nat → List Char → List (List Char × List Char)
  | 0, _ => []
  | _ + 1, [] => []
  | fuel + 1, c :: cs =>
    match matchPairAt q (c :: cs) with
    | some (p, rest) => p :: findAllAux q fuel rest
    | none => findAllAux q fuel cs

/-- All matches of one extraction pattern over the whole document, in
document order. -/
def findAllMatches (q : Char) (l : List Char) : List (List Char × List Char) :=
  findAllAux q l.length l

/-- All pairs extracted by `parse_map_ts`, in pattern order (single-quote
pattern first, then double-quote pattern) then document order. -/
def extractedPairs (doc : List Char) : List (String × String) :=
  (findAllMatches '\x27' doc ++ findAllMatches '"' doc).map
    (fun p => (String.mk p.1, String.mk p.2))

/-- Embedding of `parse_map_ts` applied to the file content: fold the
extracted pairs into an initially empty dict, inserting a pair only when
both its key and its value are non-empty. -/
def parse_map_ts (doc : String) : List (String × String) :=
  (extractedPairs doc.data).foldl
    (fun d p => if p.1 = "" ∨ p.2 = "" then d else dictInsert p.1 p.2 d) []

/-- Condition of an external source document as seen by `main`
(gen_maps.py lines 391-398): absent from the filesystem, present but
unreadable, or readable with the given content. -/
inductive ExtSource where
  | missing : ExtSource
  | unreadable : ExtSource
  | readable : String → ExtSource

/-- Embedding of the import/merge step of `main`: with no argument or a
missing path the import is skipped silently (merged-entry count reported:
none); a readable source is parsed and merged into the baseline symbol
dict with `SYMBOL_MAP.update(...)`, reporting the number of parsed
entries; an unreadable source makes `open` raise an OSError that no
handler catches, aborting the run before any output is written. -/
def importStep (src : Option ExtSource) (baseline : List (String × String)) :
    Except String (List (String × String) × Option Nat) :=
  match src with
  | none => .ok (baseline, none)
  | some .missing => .ok (baseline, none)
  | some .unreadable => .error "unhandled OSError while reading the external source"
  | some (.readable c) =>
    let ext := parse_map_ts c
    .ok (pyUpdate baseline ext, some ext.length)

/-! ## Comparison harness backends (compare.py lines 75-141) -/

/-- Outcome of one external process invocation as observed by the
harness: the spawn raised (e.g. `FileNotFoundError`), the fixed timeout
expired (`TimeoutExpired`), or the process exited with a code, a standard
output and a standard error. -/
inductive ProcOutcome where
  | spawnFailure : String → ProcOutcome
  | timedOut : String → ProcOutcome
  | exited : Int → String → String → ProcOutcome

/-- Embedding of `run_tylax` (compare.py lines 75-96): every raised
exception is caught and rendered as `"Error: ..."`; an exited process
yields its stripped standard output regardless of the exit code. -/
def run_tylax : ProcOutcome → String
  | .spawnFailure msg => "Error: " ++ msg
  | .timedOut msg => "Error: " ++ msg
  | .exited _ out _ => pyStrip out

/-- Embedding of `run_pandoc` (compare.py lines 99-119): a spawn failure
yields the fixed not-installed message, other exceptions are rendered as
`"Error: ..."`, a non-zero exit yields `"Error: "` plus standard error,
and a zero exit yields the stripped standard output. -/
def run_pandoc : ProcOutcome → String
  | .spawnFailure _ => "Error: Pandoc not installed"
  | .timedOut msg => "Error: " ++ msg
  | .exited code out err => if code = 0 then pyStrip out else "Error: " ++ err

/-- Match decision of `compare_single` (compare.py lines 122-141): the
harness reports MATCH exactly when the two backend return values compare
equal. -/
def compare_single (t p : ProcOutcome) : Bool := run_tylax t == run_pandoc p

/-! ## Embedded catalogs (gen_maps.py lines 25-264) -/

/-- Binding list of the `SYMBOL_MAP` dict literal, in source order (gen_maps.py lines 25-149; the literal has no duplicate key). -/
def symRaw : List (String × String) := [
  ("alpha", "alpha"), ("beta", "beta"), ("gamma", "gamma"), ("delta", "delta"),
  ("epsilon", "epsilon"), ("varepsilon", "epsilon.alt"), ("zeta", "zeta"), ("eta", "eta"),
  ("theta", "theta"), ("vartheta", "theta.alt"), ("iota", "iota"), ("kappa", "kappa"),
  ("lambda", "lambda"), ("mu", "mu"), ("nu", "nu"), ("xi", "xi"),
  ("pi", "pi"), ("varpi", "pi.alt"), ("rho", "rho"), ("varrho", "rho.alt"),
  ("sigma", "sigma"), ("varsigma", "sigma.alt"), ("tau", "tau"), ("upsilon", "upsilon"),
  ("phi", "phi.alt"), ("varphi", "phi"), ("chi", "chi"), ("psi", "psi"),
  ("omega", "omega"), ("Gamma", "Gamma"), ("Delta", "Delta"), ("Theta", "Theta"),
  ("Lambda", "Lambda"), ("Xi", "Xi"), ("Pi", "Pi"), ("Sigma", "Sigma"),
  ("Upsilon", "Upsilon"), ("Phi", "Phi"), ("Psi", "Psi"), ("Omega", "Omega"),
  ("pm", "plus.minus"), ("mp", "minus.plus"), ("times", "times"), ("div", "div"),
  ("cdot", "dot.op"), ("ast", "ast"), ("star", "star"), ("circ", "circle.small"),
  ("bullet", "bullet"), ("oplus", "plus.circle"), ("ominus", "minus.circle"), ("otimes", "times.circle"),
  ("oslash", "divides.circle"), ("odot", "dot.circle"), ("cap", "sect"), ("cup", "union"),
  ("sqcap", "sect.sq"), ("sqcup", "union.sq"), ("vee", "or"), ("wedge", "and"),
  ("setminus", "without"), ("wr", "wreath"), ("diamond", "diamond"), ("bigtriangleup", "triangle.t"),
  ("bigtriangledown", "triangle.b"), ("triangleleft", "triangle.l"), ("triangleright", "triangle.r"), ("lhd", "triangle.l"),
  ("rhd", "triangle.r"), ("unlhd", "triangle.l.eq"), ("unrhd", "triangle.r.eq"), ("amalg", "product.co"),
  ("dagger", "dagger"), ("ddagger", "dagger.double"), ("leq", "lt.eq"), ("le", "lt.eq"),
  ("geq", "gt.eq"), ("ge", "gt.eq"), ("prec", "prec"), ("succ", "succ"),
  ("preceq", "prec.eq"), ("succeq", "succ.eq"), ("ll", "lt.double"), ("gg", "gt.double"),
  ("subset", "subset"), ("supset", "supset"), ("subseteq", "subset.eq"), ("supseteq", "supset.eq"),
  ("sqsubset", "subset.sq"), ("sqsupset", "supset.sq"), ("sqsubseteq", "subset.sq.eq"), ("sqsupseteq", "supset.sq.eq"),
  ("in", "in"), ("ni", "in.rev"), ("notin", "in.not"), ("vdash", "tack.r"),
  ("dashv", "tack.l"), ("models", "models"), ("smile", "smile"), ("frown", "frown"),
  ("mid", "divides"), ("parallel", "parallel"), ("perp", "perp"), ("equiv", "equiv"),
  ("sim", "tilde.op"), ("simeq", "tilde.eq"), ("asymp", "asymp"), ("approx", "approx"),
  ("cong", "tilde.equiv"), ("neq", "eq.not"), ("ne", "eq.not"), ("doteq", "eq.dot"),
  ("propto", "prop"), ("leftarrow", "arrow.l"), ("rightarrow", "arrow.r"), ("to", "arrow.r"),
  ("leftrightarrow", "arrow.l.r"), ("Leftarrow", "arrow.l.double"), ("Rightarrow", "arrow.r.double"), ("Leftrightarrow", "arrow.l.r.double"),
  ("mapsto", "arrow.r.bar"), ("hookleftarrow", "arrow.l.hook"), ("hookrightarrow", "arrow.r.hook"), ("leftharpoonup", "harpoon.lt"),
  ("leftharpoondown", "harpoon.lb"), ("rightharpoonup", "harpoon.rt"), ("rightharpoondown", "harpoon.rb"), ("uparrow", "arrow.t"),
  ("downarrow", "arrow.b"), ("updownarrow", "arrow.t.b"), ("Uparrow", "arrow.t.double"), ("Downarrow", "arrow.b.double"),
  ("Updownarrow", "arrow.t.b.double"), ("nearrow", "arrow.tr"), ("searrow", "arrow.br"), ("swarrow", "arrow.bl"),
  ("nwarrow", "arrow.tl"), ("leadsto", "arrow.r.squiggly"), ("longleftarrow", "arrow.l.long"), ("longrightarrow", "arrow.r.long"),
  ("longleftrightarrow", "arrow.l.r.long"), ("Longleftarrow", "arrow.l.double.long"), ("Longrightarrow", "arrow.r.double.long"), ("Longleftrightarrow", "arrow.l.r.double.long"),
  ("longmapsto", "arrow.r.long.bar"), ("iff", "arrow.l.r.double.long"), ("infty", "infinity"), ("forall", "forall"),
  ("exists", "exists"), ("nexists", "exists.not"), ("neg", "not"), ("lnot", "not"),
  ("emptyset", "emptyset"), ("varnothing", "nothing"), ("nabla", "nabla"), ("partial", "diff"),
  ("surd", "sqrt"), ("top", "top"), ("bot", "bot"), ("angle", "angle"),
  ("triangle", "triangle.t"), ("backslash", "backslash"), ("prime", "prime"), ("flat", "flat"),
  ("natural", "natural"), ("sharp", "sharp"), ("ell", "ell"), ("hbar", "planck.reduce"),
  ("imath", "dotless.i"), ("jmath", "dotless.j"), ("wp", "weierstrass"), ("Re", "Re"),
  ("Im", "Im"), ("aleph", "aleph"), ("beth", "beth"), ("gimel", "gimel"),
  ("ldots", "dots.h"), ("cdots", "dots.c"), ("vdots", "dots.v"), ("ddots", "dots.down"),
  ("dots", "dots"), ("dotsc", "dots.c"), ("dotsb", "dots.c"), ("dotsm", "dots.c"),
  ("langle", "angle.l"), ("rangle", "angle.r"), ("lceil", "ceil.l"), ("rceil", "ceil.r"),
  ("lfloor", "floor.l"), ("rfloor", "floor.r"), ("lbrace", "brace.l"), ("rbrace", "brace.r"),
  ("lvert", "bar.v"), ("rvert", "bar.v"), ("lVert", "bar.v.double"), ("rVert", "bar.v.double"),
  ("sum", "sum"), ("prod", "product"), ("coprod", "product.co"), ("int", "integral"),
  ("iint", "integral.double"), ("iiint", "integral.triple"), ("oint", "integral.cont"), ("bigcap", "sect.big"),
  ("bigcup", "union.big"), ("bigsqcup", "union.sq.big"), ("bigvee", "or.big"), ("bigwedge", "and.big"),
  ("bigoplus", "plus.circle.big"), ("bigotimes", "times.circle.big"), ("bigodot", "dot.circle.big"), ("sin", "sin"),
  ("cos", "cos"), ("tan", "tan"), ("cot", "cot"), ("sec", "sec"),
  ("csc", "csc"), ("arcsin", "arcsin"), ("arccos", "arccos"), ("arctan", "arctan"),
  ("sinh", "sinh"), ("cosh", "cosh"), ("tanh", "tanh"), ("coth", "coth"),
  ("log", "log"), ("ln", "ln"), ("lg", "lg"), ("exp", "exp"),
  ("lim", "lim"), ("limsup", "limsup"), ("liminf", "liminf"), ("sup", "sup"),
  ("inf", "inf"), ("min", "min"), ("max", "max"), ("arg", "arg"),
  ("det", "det"), ("dim", "dim"), ("gcd", "gcd"), ("hom", "hom"),
  ("ker", "ker"), ("Pr", "Pr"), ("deg", "deg"), ("displaystyle", "display"),
  ("textstyle", "inline"), ("hspace", "#h"), (",", "thin"), (":", "med"),
  (";", "thick"), (">", "med"), (" ", "med"), ("~", "space.nobreak"),
  ("hat", "hat"), ("widehat", "hat"), ("check", "caron"), ("tilde", "tilde"),
  ("widetilde", "tilde"), ("acute", "acute"), ("grave", "grave"), ("dot", "dot"),
  ("ddot", "dot.double"), ("dddot", "dot.triple"), ("breve", "breve"), ("bar", "macron"),
  ("vec", "arrow"), ("overline", "overline"), ("underline", "underline"), ("overbrace", "overbrace"),
  ("underbrace", "underbrace"), ("|", "bar.v.double"), ("blacktriangleleft", "triangle.filled.l"), ("blacktriangleright", "triangle.filled.r"),
  ("square", "square"), ("blacksquare", "square.filled"), ("lozenge", "lozenge"), ("blacklozenge", "lozenge.filled"),
  ("clubsuit", "suit.club"), ("diamondsuit", "suit.diamond"), ("heartsuit", "suit.heart"), ("spadesuit", "suit.spade")]

/-- Binding list of the `COMMANDS_WITH_ARGS` dict literal, in source order (gen_maps.py lines 157-218; no duplicate key). -/
def cwaRaw : List (String × Nat) := [
  ("part", 1), ("chapter", 1), ("section", 1), ("subsection", 1),
  ("subsubsection", 1), ("paragraph", 1), ("title", 1), ("author", 1),
  ("date", 1), ("caption", 1), ("label", 1), ("newcommand", 2),
  ("renewcommand", 2), ("providecommand", 2), ("DeclareMathOperator", 2), ("mathbf", 1),
  ("mathit", 1), ("mathrm", 1), ("mathcal", 1), ("mathbb", 1),
  ("mathfrak", 1), ("mathsf", 1), ("mathtt", 1), ("text", 1),
  ("textrm", 1), ("textbf", 1), ("textit", 1), ("texttt", 1),
  ("textsc", 1), ("emph", 1), ("boldsymbol", 1), ("bm", 1),
  ("hat", 1), ("widehat", 1), ("tilde", 1), ("widetilde", 1),
  ("bar", 1), ("overline", 1), ("underline", 1), ("vec", 1),
  ("dot", 1), ("ddot", 1), ("overbrace", 1), ("underbrace", 1),
  ("check", 1), ("acute", 1), ("grave", 1), ("breve", 1),
  ("overset", 2), ("underset", 2), ("stackrel", 2), ("xleftarrow", 1),
  ("xrightarrow", 1), ("xmapsto", 1), ("xleftrightarrow", 1), ("mathrel", 1),
  ("mathbin", 1), ("mathop", 1), ("mathord", 1), ("mathopen", 1),
  ("mathclose", 1), ("mathpunct", 1), ("mathinner", 1), ("pmod", 1),
  ("pod", 1), ("displaylines", 1), ("set", 1), ("Set", 1),
  ("sqrt", 1), ("not", 1), ("phantom", 1), ("cancel", 1),
  ("bcancel", 1), ("boxed", 1), ("fbox", 1), ("frac", 2),
  ("dfrac", 2), ("tfrac", 2), ("cfrac", 2), ("binom", 2),
  ("textcolor", 2), ("colorbox", 2), ("color", 1), ("url", 1),
  ("href", 2), ("ref", 1), ("eqref", 1), ("autoref", 1),
  ("pageref", 1), ("cref", 1), ("Cref", 1), ("footnote", 1),
  ("cite", 1), ("citep", 1), ("citet", 1), ("autocite", 1),
  ("textcite", 1), ("parencite", 1), ("footcite", 1), ("ac", 1),
  ("gls", 1), ("Gls", 1), ("acrshort", 1), ("acrlong", 1),
  ("acrfull", 1), ("Acs", 1), ("Acl", 1), ("Acf", 1),
  ("newacronym", 3), ("newglossaryentry", 2), ("typstcite", 1)]

/-- Binding list of the `TYPST_TO_TEX` dict literal, in source order (gen_maps.py lines 220-264; no duplicate key). -/
def t2tRaw : List (String × String) := [
  ("alpha", "alpha"), ("beta", "beta"), ("gamma", "gamma"), ("delta", "delta"),
  ("epsilon", "epsilon"), ("epsilon.alt", "varepsilon"), ("zeta", "zeta"), ("eta", "eta"),
  ("theta", "theta"), ("theta.alt", "vartheta"), ("iota", "iota"), ("kappa", "kappa"),
  ("lambda", "lambda"), ("mu", "mu"), ("nu", "nu"), ("xi", "xi"),
  ("pi", "pi"), ("pi.alt", "varpi"), ("rho", "rho"), ("rho.alt", "varrho"),
  ("sigma", "sigma"), ("sigma.alt", "varsigma"), ("tau", "tau"), ("upsilon", "upsilon"),
  ("phi", "varphi"), ("phi.alt", "phi"), ("chi", "chi"), ("psi", "psi"),
  ("omega", "omega"), ("Gamma", "Gamma"), ("Delta", "Delta"), ("Theta", "Theta"),
  ("Lambda", "Lambda"), ("Xi", "Xi"), ("Pi", "Pi"), ("Sigma", "Sigma"),
  ("Upsilon", "Upsilon"), ("Phi", "Phi"), ("Psi", "Psi"), ("Omega", "Omega"),
  ("plus.minus", "pm"), ("minus.plus", "mp"), ("times", "times"), ("div", "div"),
  ("dot.op", "cdot"), ("sect", "cap"), ("union", "cup"), ("lt.eq", "leq"),
  ("gt.eq", "geq"), ("eq.not", "neq"), ("approx", "approx"), ("equiv", "equiv"),
  ("tilde.op", "sim"), ("subset", "subset"), ("supset", "supset"), ("subset.eq", "subseteq"),
  ("supset.eq", "supseteq"), ("in", "in"), ("in.not", "notin"), ("forall", "forall"),
  ("exists", "exists"), ("not", "neg"), ("arrow.r", "rightarrow"), ("arrow.l", "leftarrow"),
  ("arrow.l.r", "leftrightarrow"), ("arrow.r.double", "Rightarrow"), ("arrow.l.double", "Leftarrow"), ("arrow.l.r.double", "Leftrightarrow"),
  ("infinity", "infty"), ("emptyset", "emptyset"), ("diff", "partial"), ("nabla", "nabla"),
  ("sum", "sum"), ("product", "prod"), ("integral", "int"), ("sin", "sin"),
  ("cos", "cos"), ("tan", "tan"), ("log", "log"), ("ln", "ln"),
  ("exp", "exp"), ("lim", "lim"), ("max", "max"), ("min", "min"),
  ("dots.h", "ldots"), ("dots.c", "cdots"), ("dots.v", "vdots"), ("oo", "infty")]

/-- The `SYMBOL_MAP` dict object. -/
def symD : List (String × String) := pyDict symRaw

/-- The `COMMANDS_WITH_ARGS` dict object. -/
def cwaD : List (String × Nat) := pyDict cwaRaw

/-- The `TYPST_TO_TEX` dict object. -/
def t2tD : List (String × String) := pyDict t2tRaw

/-- Alias token carried by a generated item. -/
def aliasOf : SpecItem → Option String
  | .cmd _ a => a
  | .env _ a => a

/-- Both tokens of a forward-table entry are non-empty: the name, and the
alias when one is present. -/
def entryTokensNonempty (e : String × SpecItem) : Bool :=
  (e.1 != "") &&
    (match aliasOf e.2 with
     | some a => a != ""
     | none => true)

/-- Both tokens of a reverse-map entry are non-empty. -/
def revTokensNonempty (p : String × String) : Bool :=
  (p.1 != "") && (p.2 != "")

/-! ## Lemmas: last-write lookup -/

/-- Folding the last-write lookup step from any accumulator. -/
theorem rawLookupLast_foldl {α : Type} (k : String) (l : List (String × α))
    (acc : Option α) :
    l.foldl (fun a p => if p.1 = k then some p.2 else a) acc =
      (rawLookupLast k l).elim acc some := by
  induction l generalizing acc with
  | nil => rfl
  | cons p l ih =>
    show l.foldl _ (if p.1 = k then some p.2 else acc) = _
    rw [ih]
    have hr : rawLookupLast k (p :: l) =
        (rawLookupLast k l).elim (if p.1 = k then some p.2 else none) some := by
      show l.foldl _ (if p.1 = k then some p.2 else none) = _
      rw [ih]
    rw [hr]
    cases rawLookupLast k l with
    | some v => simp
    | none => by_cases h : p.1 = k <;> simp [h]

/-- Unfolding the last-write lookup over a cons cell. -/
theorem rawLookupLast_cons {α : Type} (k : String) (p : String × α)
    (l : List (String × α)) :
    rawLookupLast k (p :: l) =
      (rawLookupLast k l).elim (if p.1 = k then some p.2 else none) some := by
  show l.foldl _ (if p.1 = k then some p.2 else none) = _
  rw [rawLookupLast_foldl]

/-- The last write over an append: a binding in the second part wins. -/
theorem rawLookupLast_append {α : Type} (k : String) (l₁ l₂ : List (String × α)) :
    rawLookupLast k (l₁ ++ l₂) =
      (rawLookupLast k l₂).elim (rawLookupLast k l₁) some := by
  show (l₁ ++ l₂).foldl _ none = _
  rw [List.foldl_append, rawLookupLast_foldl]
  rfl

/-- A key that occurs nowhere looks up to nothing. -/
theorem rawLookupLast_eq_none {α : Type} {k : String} {l : List (String × α)}
    (h : ∀ p ∈ l, p.1 ≠ k) : rawLookupLast k l = none := by
  induction l with
  | nil => rfl
  | cons p l ih =>
    rw [rawLookupLast_cons, ih (fun q hq => h q (List.mem_cons_of_mem _ hq))]
    simp [h p (List.mem_cons_self _ _)]

/-- A successful last-write lookup exhibits a binding of the list. -/
theorem mem_of_rawLookupLast {α : Type} {k : String} {v : α}
    {l : List (String × α)} (h : rawLookupLast k l = some v) : (k, v) ∈ l := by
  induction l with
  | nil => simp [rawLookupLast] at h
  | cons p l ih =>
    rw [rawLookupLast_cons] at h
    cases hr : rawLookupLast k l with
    | some w =>
      rw [hr, Option.elim_some] at h
      cases h
      exact List.mem_cons_of_mem _ (ih hr)
    | none =>
      rw [hr, Option.elim_none] at h
      by_cases hp : p.1 = k
      · rw [if_pos hp] at h
        have hpv : p = (k, v) := by
          obtain ⟨p1, p2⟩ := p
          simp only at hp
          cases h
          rw [hp]
        rw [← hpv]
        exact List.mem_cons_self _ _
      · rw [if_neg hp] at h
        exact absurd h (by simp)

/-- On a key-unique list, every binding is found by the last-write lookup. -/
theorem rawLookupLast_of_mem_nodup {α : Type} {k : String} {v : α}
    {l : List (String × α)} (hn : (l.map Prod.fst).Nodup) (h : (k, v) ∈ l) :
    rawLookupLast k l = some v := by
  induction l with
  | nil => simp at h
  | cons p l ih =>
    rw [List.map_cons, List.nodup_cons] at hn
    rw [rawLookupLast_cons]
    rcases List.mem_cons.mp h with h1 | h2
    · have hk : p.1 = k := by rw [← h1]
      have hnone : rawLookupLast k l = none := by
        refine rawLookupLast_eq_none (fun q hq hqk => hn.1 ?_)
        rw [hk]
        exact hqk ▸ List.mem_map.mpr ⟨q, hq, rfl⟩
      rw [hnone, Option.elim_none, if_pos hk]
      rw [← h1]
    · rw [ih hn.2 h2, Option.elim_some]

/-! ## Lemmas: dict construction -/

/-- Keys after a dict insert: the inserted key joins the key set. -/
theorem mem_keys_dictInsert {α : Type} (k k' : String) (v : α)
    (d : List (String × α)) :
    k' ∈ (dictInsert k v d).map Prod.fst ↔ k' = k ∨ k' ∈ d.map Prod.fst := by
  induction d with
  | nil => simp [dictInsert]
  | cons p d ih =>
    by_cases hp : p.1 = k
    · simp [dictInsert, hp]
    · simp only [dictInsert, if_neg hp, List.map_cons, List.mem_cons, ih]
      tauto

/-- A dict insert preserves key uniqueness. -/
theorem nodupKeys_dictInsert {α : Type} (k : String) (v : α)
    {d : List (String × α)} (hd : (d.map Prod.fst).Nodup) :
    ((dictInsert k v d).map Prod.fst).Nodup := by
  induction d with
  | nil => simp [dictInsert]
  | cons p d ih =>
    rw [List.map_cons, List.nodup_cons] at hd
    by_cases hp : p.1 = k
    · simp only [dictInsert, if_pos hp, List.map_cons, List.nodup_cons]
      exact ⟨hp ▸ hd.1, hd.2⟩
    · simp only [dictInsert, if_neg hp, List.map_cons, List.nodup_cons]
      refine ⟨fun hmem => ?_, ih hd.2⟩
      rcases (mem_keys_dictInsert k p.1 v d).mp hmem with h1 | h2
      · exact hp h1
      · exact hd.1 h2

/-- Lookup after a dict insert on a key-unique dict. -/
theorem rawLookupLast_dictInsert {α : Type} (k k' : String) (v : α)
    {d : List (String × α)} (hd : (d.map Prod.fst).Nodup) :
    rawLookupLast k' (dictInsert k v d) =
      if k = k' then some v else rawLookupLast k' d := by
  induction d with
  | nil =>
    show rawLookupLast k' [(k, v)] = _
    rw [rawLookupLast_cons]
    by_cases hk : k = k' <;> simp [hk, rawLookupLast]
  | cons p d ih =>
    rw [List.map_cons, List.nodup_cons] at hd
    by_cases hp : p.1 = k
    · simp only [dictInsert, if_pos hp]
      by_cases hk : k = k'
      · have hnone : rawLookupLast k' d = none := by
          refine rawLookupLast_eq_none (fun q hq hqk => hd.1 ?_)
          have hqm : q.1 ∈ d.map Prod.fst := List.mem_map.mpr ⟨q, hq, rfl⟩
          rw [hqk, ← hk, ← hp] at hqm
          exact hqm
        rw [rawLookupLast_cons, hnone, Option.elim_none]
        simp [hk]
      · rw [rawLookupLast_cons, if_neg hk, rawLookupLast_cons]
        have hpk' : ¬ p.1 = k' := fun h => hk (hp.symm.trans h)
        rw [if_neg hk, if_neg hpk']
    · simp only [dictInsert, if_neg hp]
      rw [rawLookupLast_cons, ih hd.2]
      by_cases hk : k = k'
      · rw [if_pos hk, if_pos hk, Option.elim_some]
      · rw [if_neg hk, if_neg hk, ← rawLookupLast_cons]

/-- Key uniqueness and lookup of `pyUpdate`: the updated dict stays
key-unique and a key looks up to its last write in `more`, falling back to
the base dict. -/
theorem pyUpdate_spec {α : Type} (more : List (String × α)) :
    ∀ d : List (String × α), (d.map Prod.fst).Nodup →
      ((pyUpdate d more).map Prod.fst).Nodup ∧
      ∀ k, rawLookupLast k (pyUpdate d more) =
        (rawLookupLast k more).elim (rawLookupLast k d) some := by
  induction more with
  | nil =>
    intro d hd
    exact ⟨hd, fun k => by simp [pyUpdate, rawLookupLast]⟩
  | cons p more ih =>
    intro d hd
    have hstep : pyUpdate d (p :: more) = pyUpdate (dictInsert p.1 p.2 d) more := rfl
    obtain ⟨ihn, ihr⟩ := ih (dictInsert p.1 p.2 d) (nodupKeys_dictInsert _ _ hd)
    refine ⟨hstep ▸ ihn, fun k => ?_⟩
    rw [hstep, ihr k, rawLookupLast_dictInsert p.1 k p.2 hd, rawLookupLast_cons k p more]
    cases rawLookupLast k more with
    | some v => simp
    | none =>
      simp only [Option.elim_none]
      by_cases hpk : p.1 = k <;> simp [hpk]

/-- The dict built from a binding list is key-unique. -/
theorem pyDict_nodupKeys {α : Type} (l : List (String × α)) :
    ((pyDict l).map Prod.fst).Nodup :=
  (pyUpdate_spec l [] (by simp)).1

/-- Dict lookup equals the last binding written for the key. -/
theorem rawLookupLast_pyDict {α : Type} (k : String) (l : List (String × α)) :
    rawLookupLast k (pyDict l) = rawLookupLast k l := by
  have h := (pyUpdate_spec l [] (by simp)).2 k
  rw [show pyDict l = pyUpdate [] l from rfl, h]
  cases rawLookupLast k l <;> simp [rawLookupLast]

/-- Membership in the built dict is exactly a successful last-write
lookup over the binding list. -/
theorem mem_pyDict_iff {α : Type} {k : String} {v : α} {l : List (String × α)} :
    (k, v) ∈ pyDict l ↔ rawLookupLast k l = some v := by
  constructor
  · intro h
    rw [← rawLookupLast_pyDict]
    exact rawLookupLast_of_mem_nodup (pyDict_nodupKeys l) h
  · intro h
    exact mem_of_rawLookupLast (by rw [rawLookupLast_pyDict, h])

/-- Key membership unfolds to existence of a binding. -/
theorem containsKey_true_iff {α : Type} {k : String} {l : List (String × α)} :
    containsKey k l = true ↔ ∃ v, (k, v) ∈ l := by
  simp only [containsKey, List.any_eq_true, beq_iff_eq]
  constructor
  · rintro ⟨p, hp, hpe⟩
    refine ⟨p.2, ?_⟩
    rw [← hpe]
    exact hp
  · rintro ⟨v, hv⟩
    exact ⟨(k, v), hv, rfl⟩

/-- Python `k in d` on a built dict mirrors the last-write lookup on the
binding list. -/
theorem containsKey_pyDict {α : Type} (k : String) (l : List (String × α)) :
    containsKey k (pyDict l) = (rawLookupLast k l).isSome := by
  cases hr : rawLookupLast k l with
  | some v =>
    simp only [Option.isSome_some]
    exact containsKey_true_iff.mpr ⟨v, mem_pyDict_iff.mpr hr⟩
  | none =>
    simp only [Option.isSome_none]
    rw [Bool.eq_false_iff]
    intro hc
    obtain ⟨v, hv⟩ := containsKey_true_iff.mp hc
    rw [mem_pyDict_iff, hr] at hv
    cases hv

/-- Key membership is invariant under permutation of the bindings. -/
theorem containsKey_perm {α : Type} {l₁ l₂ : List (String × α)} (h : l₁.Perm l₂)
    (k : String) : containsKey k l₁ = containsKey k l₂ := by
  cases h2 : containsKey k l₂ with
  | true =>
    obtain ⟨v, hv⟩ := containsKey_true_iff.mp h2
    exact containsKey_true_iff.mpr ⟨v, h.mem_iff.mpr hv⟩
  | false =>
    rw [Bool.eq_false_iff]
    intro h1
    obtain ⟨v, hv⟩ := containsKey_true_iff.mp h1
    have h3 : containsKey k l₂ = true := containsKey_true_iff.mpr ⟨v, h.mem_iff.mp hv⟩
    rw [h2] at h3
    cases h3

/-! ## Lemmas: sorting -/

/-- Sorting the items permutes them. -/
theorem sortByKey_perm {α : Type} (l : List (String × α)) : (sortByKey l).Perm l :=
  List.perm_insertionSort keyLE l

/-- The sorted items are ordered by key. -/
theorem sortByKey_sorted {α : Type} (l : List (String × α)) :
    List.Sorted keyLE (sortByKey l) :=
  List.sorted_insertionSort keyLE l

/-- Sorting preserves the item set. -/
theorem mem_sortByKey {α : Type} {p : String × α} {l : List (String × α)} :
    p ∈ sortByKey l ↔ p ∈ l :=
  (sortByKey_perm l).mem_iff

/-- On key-unique items, an ordering by key is strict. -/
theorem sorted_keyLT_of_nodupKeys {α : Type} {l : List (String × α)}
    (hs : List.Sorted keyLE l) (hn : (l.map Prod.fst).Nodup) :
    List.Pairwise (fun a b : String × α => a.1 < b.1) l := by
  have hs' : List.Pairwise keyLE l := hs
  have hne : List.Pairwise (fun a b : String × α => a.1 ≠ b.1) l :=
    List.pairwise_map.mp hn
  exact (hs'.and hne).imp (fun h => lt_of_le_of_ne h.1 h.2)

/-- Two key-unique binding lists that are permutations of each other sort
to the same list: the sorted items are canonical.  This is what makes the
emitted text independent of dict iteration details. -/
theorem sortByKey_eq_of_perm {α : Type} {l₁ l₂ : List (String × α)}
    (hp : l₁.Perm l₂) (hn : (l₁.map Prod.fst).Nodup) :
    sortByKey l₁ = sortByKey l₂ := by
  haveI : IsAntisymm (String × α) (fun a b => a.1 < b.1) :=
    ⟨fun a b h1 h2 => absurd h2 (lt_asymm h1)⟩
  have hn₁ : ((sortByKey l₁).map Prod.fst).Nodup :=
    ((sortByKey_perm l₁).symm.map Prod.fst).nodup hn
  have hn₂ : ((sortByKey l₂).map Prod.fst).Nodup :=
    ((hp.map Prod.fst).trans ((sortByKey_perm l₂).symm.map Prod.fst)).nodup hn
  exact List.eq_of_perm_of_sorted
    ((sortByKey_perm l₁).trans (hp.trans (sortByKey_perm l₂).symm))
    (sorted_keyLT_of_nodupKeys (sortByKey_sorted l₁) hn₁)
    (sorted_keyLT_of_nodupKeys (sortByKey_sorted l₂) hn₂)

/-- A key-preserving filterMap of a key-ordered list stays key-ordered. -/
theorem pairwise_keyLE_filterMap {β γ : Type} {f : (String × β) → Option (String × γ)}
    (hf : ∀ p q, f p = some q → q.1 = p.1) {l : List (String × β)}
    (h : List.Sorted keyLE l) : List.Pairwise keyLE (l.filterMap f) := by
  rw [List.pairwise_filterMap]
  have h' : List.Pairwise keyLE l := h
  refine h'.imp ?_
  intro a b hab q hq q' hq'
  have h1 : q.1 = a.1 := hf a q (Option.mem_def.mp hq)
  have h2 : q'.1 = b.1 := hf b q' (Option.mem_def.mp hq')
  show q.1 ≤ q'.1
  rw [h1, h2]
  exact hab

/-! ## Lemmas: stripping -/

/-- Dropping a satisfying prefix skips a fully satisfying first part. -/
theorem dropWhile_append_of_all {p : Char → Bool} {xs ys : List Char}
    (h : ∀ a ∈ xs, p a = true) :
    (xs ++ ys).dropWhile p = ys.dropWhile p := by
  rw [List.dropWhile_append, if_pos]
  simp [List.dropWhile_eq_nil_iff.mpr h]

/-- Appending whitespace does not change the stripped character list. -/
theorem pyStripList_append_ws {t w : List Char} (hw : ∀ a ∈ w, isPyWs a = true) :
    pyStripList (t ++ w) = pyStripList t := by
  unfold pyStripList
  rw [List.dropWhile_append]
  by_cases h : (t.dropWhile isPyWs).isEmpty = true
  · rw [if_pos h]
    have hwnil : w.dropWhile isPyWs = [] := List.dropWhile_eq_nil_iff.mpr hw
    have htnil : t.dropWhile isPyWs = [] := by
      rwa [List.isEmpty_iff] at h
    rw [hwnil, htnil]
  · rw [if_neg h, List.reverse_append]
    rw [dropWhile_append_of_all (fun a ha => hw a (List.mem_reverse.mp ha))]

/-- Appending whitespace does not change the stripped string. -/
theorem pyStrip_append_ws (t w : String) (hw : w.data.all isPyWs = true) :
    pyStrip (t ++ w) = pyStrip t := by
  unfold pyStrip
  rw [String.data_append]
  congr 1
  exact pyStripList_append_ws (List.all_eq_true.mp hw)

/-! ## Lemmas: escaping -/

/-- One step of the composed escape: each character expands independently. -/
theorem escape_cons (c : Char) (t : List Char) :
    escape_rust_string (c :: t) =
      (if c = '\\' then ['\\', '\\']
       else if c = '"' then ['\\', '"'] else [c]) ++ escape_rust_string t := by
  by_cases h1 : c = '\\'
  · subst h1
    simp [escape_rust_string, pyReplaceChar]
  · by_cases h2 : c = '"'
    · subst h2
      simp [escape_rust_string, pyReplaceChar]
    · simp [escape_rust_string, pyReplaceChar, h1, h2]

/-- Re-parsing steps over an ordinary character. -/
theorem litBody_cons_other {c : Char} (h1 : ¬ c = '\\') (h2 : ¬ c = '"')
    (rest : List Char) :
    litBody (c :: rest) = (litBody rest).map (fun p => (c :: p.1, p.2)) := by
  rw [litBody.eq_def]
  simp only [if_neg h2, if_neg h1]

/-- Re-parsing decodes a backslash escape of a backslash or a quote. -/
theorem litBody_cons_escape {e : Char} (he : e = '\\' ∨ e = '"')
    (rest : List Char) :
    litBody ('\\' :: e :: rest) = (litBody rest).map (fun p => (e :: p.1, p.2)) := by
  rw [litBody.eq_def]
  have h : (e = '\\' || e = '"') = true := by
    rcases he with h | h <;> simp [h]
  simp [h]

/-- Re-parsing stops at an unescaped quote. -/
theorem litBody_cons_quote (rest : List Char) :
    litBody ('"' :: rest) = some ([], rest) := by
  rw [litBody.eq_def]
  simp

/-- The escaped body followed by the closing quote re-parses to exactly
the original characters, consuming everything. -/
theorem litBody_escape (s : List Char) :
    litBody (escape_rust_string s ++ ['"']) = some (s, []) := by
  induction s with
  | nil =>
    show litBody ('"' :: []) = _
    exact litBody_cons_quote []
  | cons c t ih =>
    rw [escape_cons]
    by_cases h1 : c = '\\'
    · subst h1
      rw [if_pos rfl]
      simp only [List.cons_append, List.nil_append]
      rw [litBody_cons_escape (Or.inl rfl), ih]
      rfl
    · by_cases h2 : c = '"'
      · subst h2
        rw [if_neg h1, if_pos rfl]
        simp only [List.cons_append, List.nil_append]
        rw [litBody_cons_escape (Or.inr rfl), ih]
        rfl
      · rw [if_neg h1, if_neg h2]
        simp only [List.cons_append, List.nil_append]
        rw [litBody_cons_other h1 h2, ih]
        rfl

/-! ## Lemmas: generated entries -/

/-- Characterisation of the symbol-derived alias entries. -/
theorem mem_symEntries_iff {S : List (String × String)} {A : List (String × Nat)}
    {n : String} {it : SpecItem} :
    (n, it) ∈ symEntries S A ↔
      ∃ a : String, it = .cmd .noArgs (some a) ∧ (n, a) ∈ S ∧
        ¬(n = "" ∨ a = "") ∧ containsKey n A = false := by
  unfold symEntries
  rw [List.mem_filterMap]
  constructor
  · rintro ⟨p, hp, heq⟩
    by_cases hc1 : p.1 = "" ∨ p.2 = ""
    · rw [if_pos hc1] at heq
      cases heq
    · rw [if_neg hc1] at heq
      by_cases hc2 : containsKey p.1 A = true
      · rw [if_pos hc2] at heq
        cases heq
      · rw [if_neg hc2] at heq
        injection heq with heq
        rw [Prod.mk.injEq] at heq
        refine ⟨p.2, heq.2.symm, ?_, ?_, ?_⟩
        · rw [← heq.1]
          exact mem_sortByKey.mp hp
        · rw [← heq.1]
          exact hc1
        · rw [← heq.1]
          exact Bool.eq_false_iff.mpr hc2
  · rintro ⟨a, hit, hmem, hc1, hc2⟩
    refine ⟨(n, a), mem_sortByKey.mpr hmem, ?_⟩
    rw [if_neg hc1, if_neg (by rw [hc2]; exact Bool.false_ne_true), hit]

/-- Characterisation of the arity entries. -/
theorem mem_arityEntries_iff {A : List (String × Nat)} {n : String} {it : SpecItem} :
    (n, it) ∈ arityEntries A ↔
      ∃ k : Nat, it = .cmd (.fixedLen k) none ∧ (n, k) ∈ A ∧ ¬ n = "typstcite" := by
  unfold arityEntries
  rw [List.mem_filterMap]
  constructor
  · rintro ⟨p, hp, heq⟩
    by_cases hc : p.1 = "typstcite"
    · rw [if_pos hc] at heq
      cases heq
    · rw [if_neg hc] at heq
      injection heq with heq
      rw [Prod.mk.injEq] at heq
      refine ⟨p.2, heq.2.symm, ?_, ?_⟩
      · rw [← heq.1]
        exact mem_sortByKey.mp hp
      · rw [← heq.1]
        exact hc
  · rintro ⟨k, hit, hmem, hc⟩
    refine ⟨(n, k), mem_sortByKey.mpr hmem, ?_⟩
    rw [if_neg hc, hit]

/-- Characterisation of the emitted reverse-map entries. -/
theorem mem_reverseEntries_iff {R : List (String × String)} {p : String × String} :
    p ∈ reverseEntries R ↔ p ∈ R ∧ ¬(p.1 = "" ∨ p.2 = "") := by
  unfold reverseEntries
  rw [List.mem_filterMap]
  constructor
  · rintro ⟨q, hq, heq⟩
    by_cases hc : q.1 = "" ∨ q.2 = ""
    · rw [if_pos hc] at heq
      cases heq
    · rw [if_neg hc] at heq
      injection heq with heq
      rw [← heq]
      exact ⟨mem_sortByKey.mp hq, hc⟩
  · rintro ⟨hmem, hc⟩
    exact ⟨p, mem_sortByKey.mpr hmem, by rw [if_neg hc]⟩

/-- Splitting membership in the full emitted entry sequence. -/
theorem mem_fwdEntries_iff {S : List (String × String)} {A : List (String × Nat)}
    {n : String} {it : SpecItem} :
    (n, it) ∈ fwdEntries S A ↔
      (n, it) ∈ symEntries S A ∨ (n, it) = tyEntry ∨ (n, it) = alignedEntry ∨
        (n, it) ∈ arityEntries A := by
  unfold fwdEntries
  simp only [List.mem_append, List.mem_cons, List.not_mem_nil, or_false]
  tauto

/-! ## Decidable facts about the embedded catalogs -/

set_option maxRecDepth 8192 in
/-- Every value token of the embedded symbol catalog is non-empty. -/
theorem symRaw_vals_nonempty : symRaw.all (fun p => p.2 != "") = true := by decide

set_option maxRecDepth 8192 in
/-- Every key of the embedded symbol catalog is non-empty. -/
theorem symRaw_keys_nonempty : symRaw.all (fun p => p.1 != "") = true := by decide

/-- Every key of the embedded arity catalog is non-empty. -/
theorem cwaRaw_keys_nonempty : cwaRaw.all (fun p => p.1 != "") = true := by decide

set_option maxRecDepth 8192 in
/-- The embedded symbol catalog has no `typstcite` binding. -/
theorem symRaw_no_typstcite : rawLookupLast "typstcite" symRaw = none := by decide

set_option maxRecDepth 8192 in
/-- The embedded symbol catalog has no `aligned` binding. -/
theorem symRaw_no_aligned : rawLookupLast "aligned" symRaw = none := by decide

set_option maxRecDepth 8192 in
/-- The embedded arity catalog has no `aligned` binding. -/
theorem cwaRaw_no_aligned : rawLookupLast "aligned" cwaRaw = none := by decide

set_option maxRecDepth 8192 in
/-- The embedded symbol catalog has no empty-string key. -/
theorem symRaw_no_empty_key : rawLookupLast "" symRaw = none := by decide

/-- Folding the guarded insert of `parse_map_ts` equals updating with the
pairs that pass the non-empty filter. -/
theorem foldl_guard_eq_pyUpdate (l : List (String × String)) :
    ∀ d, l.foldl
        (fun d p => if p.1 = "" ∨ p.2 = "" then d else dictInsert p.1 p.2 d) d =
      pyUpdate d (l.filter (fun p => !(p.1 == "") && !(p.2 == ""))) := by
  induction l with
  | nil => intro d; rfl
  | cons p l ih =>
    intro d
    by_cases hc : p.1 = "" ∨ p.2 = ""
    · have hf : (p :: l).filter (fun p => !(p.1 == "") && !(p.2 == "")) =
          l.filter (fun p => !(p.1 == "") && !(p.2 == "")) := by
        rw [List.filter_cons, if_neg]
        rcases hc with h | h <;> simp [h]
      show l.foldl _ (if p.1 = "" ∨ p.2 = "" then d else _) = _
      rw [if_pos hc, hf]
      exact ih d
    · have hf : (p :: l).filter (fun p => !(p.1 == "") && !(p.2 == "")) =
          p :: l.filter (fun p => !(p.1 == "") && !(p.2 == "")) := by
        rw [List.filter_cons, if_pos]
        push_neg at hc
        simp [hc.1, hc.2]
      show l.foldl _ (if p.1 = "" ∨ p.2 = "" then d else dictInsert p.1 p.2 d) = _
      rw [if_neg hc, hf]
      exact ih (dictInsert p.1 p.2 d)

/-! ## The claims -/

/-- C1 counterexample: a reverse catalog authoring key `k` with the two
different values `X` and `Y` does NOT raise any ConfigurationConflict and
does not prevent output — no such check exists in `gen_maps.py`.  The
Python dict literal silently keeps the later binding, the generator
succeeds, and the single emitted line carries the later value. -/
theorem C1_counterexample :
    pyDict [("k", "X"), ("k", "Y")] = [("k", "Y")] ∧
    reverseEntries (pyDict [("k", "X"), ("k", "Y")]) = [("k", "Y")] ∧
    (reverseEntries (pyDict [("k", "X"), ("k", "Y")])).map revLine =
      ["    \"k\" => \"Y\","] :=
  ⟨by decide, by decide, by decide⟩

/-- C1 amended: a key paired with two different values is resolved
silently by last-write-wins — compilation succeeds and emits a single
entry carrying the later value; a key repeated with identical values
likewise compiles to a single entry. -/
theorem C1_amended (K X Y : String) (hK : K ≠ "") (hX : X ≠ "") (hY : Y ≠ "")
    (hXY : X ≠ Y) :
    reverseEntries (pyDict [(K, X), (K, Y)]) = [(K, Y)] ∧
    reverseEntries (pyDict [(K, X), (K, X)]) = [(K, X)] := by
  have hdict : ∀ V W : String, pyDict [(K, V), (K, W)] = [(K, W)] := by
    intro V W
    show dictInsert K W (dictInsert K V []) = _
    simp [dictInsert]
  have hrev : ∀ W : String, W ≠ "" → reverseEntries [(K, W)] = [(K, W)] := by
    intro W hW
    unfold reverseEntries
    have hs : sortByKey [(K, W)] = [(K, W)] := by
      simp [sortByKey, List.insertionSort, List.orderedInsert]
    rw [hs]
    simp [List.filterMap_cons, hK, hW]
  exact ⟨by rw [hdict X Y]; exact hrev Y hY, by rw [hdict X X]; exact hrev X hX⟩

/-- C1 witness: the amended behaviour at the concrete conflicting catalog
`{(k, X), (k, Y)}` and the idempotent catalog `{(k, X), (k, X)}`. -/
theorem C1_witness :
    ("k" : String) ≠ "" ∧ ("X" : String) ≠ "" ∧ ("Y" : String) ≠ "" ∧
    ("X" : String) ≠ "Y" ∧
    reverseEntries (pyDict [("k", "X"), ("k", "Y")]) = [("k", "Y")] ∧
    reverseEntries (pyDict [("k", "X"), ("k", "X")]) = [("k", "X")] := by
  have h := C1_amended "k" "X" "Y" (by decide) (by decide) (by decide) (by decide)
  exact ⟨by decide, by decide, by decide, by decide, h.1, h.2⟩

/-- C2: precedence in the compiled forward table over the embedded
catalogs.  A name bound in both the symbol dict and the arity dict
compiles to the arity entry with the arity-dict count and never to the
alias entry; a name bound only in the symbol dict compiles to its alias
entry; a name bound in neither dict (and distinct from the two structural
names) is absent from the table. -/
theorem C2_precedence (n : String) :
    (∀ k s, rawLookupLast n cwaRaw = some k → rawLookupLast n symRaw = some s →
      (n, SpecItem.cmd (.fixedLen k) none) ∈ fwdEntries symD cwaD ∧
      (n, SpecItem.cmd .noArgs (some s)) ∉ fwdEntries symD cwaD) ∧
    (rawLookupLast n cwaRaw = none →
      ∀ s, rawLookupLast n symRaw = some s →
        (n, SpecItem.cmd .noArgs (some s)) ∈ fwdEntries symD cwaD) ∧
    (rawLookupLast n cwaRaw = none → rawLookupLast n symRaw = none →
      n ≠ "typstcite" → n ≠ "aligned" →
      ∀ it : SpecItem, (n, it) ∉ fwdEntries symD cwaD) := by
  refine ⟨fun k s hk hs => ⟨?_, ?_⟩, fun hk s hs => ?_, fun hk hs ht ha it hmem => ?_⟩
  · have hnty : n ≠ "typstcite" := by
      intro he
      rw [he, symRaw_no_typstcite] at hs
      cases hs
    exact mem_fwdEntries_iff.mpr (Or.inr (Or.inr (Or.inr
      (mem_arityEntries_iff.mpr ⟨k, rfl, mem_pyDict_iff.mpr hk, hnty⟩))))
  · intro hmem
    rcases mem_fwdEntries_iff.mp hmem with hsym | hty | hal | har
    · obtain ⟨a, _, _, _, hck⟩ := mem_symEntries_iff.mp hsym
      have hck2 : (rawLookupLast n cwaRaw).isSome = false := by
        rw [← containsKey_pyDict n cwaRaw]
        exact hck
      rw [hk] at hck2
      cases hck2
    · simp [tyEntry, Prod.mk.injEq] at hty
    · simp [alignedEntry, Prod.mk.injEq] at hal
    · obtain ⟨k', hit, _, _⟩ := mem_arityEntries_iff.mp har
      simp at hit
  · have hn0 : n ≠ "" := by
      intro he
      rw [he, symRaw_no_empty_key] at hs
      cases hs
    have hmemS : (n, s) ∈ symRaw := mem_of_rawLookupLast hs
    have hs0 : s ≠ "" := by
      have h := List.all_eq_true.mp symRaw_vals_nonempty _ hmemS
      simpa using h
    refine mem_fwdEntries_iff.mpr (Or.inl
      (mem_symEntries_iff.mpr ⟨s, rfl, mem_pyDict_iff.mpr hs, ?_, ?_⟩))
    · simp [hn0, hs0]
    · show containsKey n (pyDict cwaRaw) = false
      rw [containsKey_pyDict, hk]
      rfl
  · rcases mem_fwdEntries_iff.mp hmem with hsym | hty | hal | har
    · obtain ⟨a, _, hmemS, _, _⟩ := mem_symEntries_iff.mp hsym
      have hraw : rawLookupLast n symRaw = some a := mem_pyDict_iff.mp hmemS
      rw [hs] at hraw
      cases hraw
    · exact ht (congrArg Prod.fst hty)
    · exact ha (congrArg Prod.fst hal)
    · obtain ⟨k, _, hmemA, _⟩ := mem_arityEntries_iff.mp har
      have hraw : rawLookupLast n cwaRaw = some k := mem_pyDict_iff.mp hmemA
      rw [hk] at hraw
      cases hraw

set_option maxRecDepth 8192 in
/-- C2 witness: concrete instances — `hat` is in both catalogs (arity 1:
the arity entry is present, the alias entry absent), `alpha` is only in
the symbol catalog (its alias entry is present), `zzz` is in neither (no
entry at all, instantiated at one shape). -/
theorem C2_witness :
    rawLookupLast "hat" cwaRaw = some 1 ∧
    rawLookupLast "hat" symRaw = some "hat" ∧
    ("hat", SpecItem.cmd (.fixedLen 1) none) ∈ fwdEntries symD cwaD ∧
    ("hat", SpecItem.cmd .noArgs (some "hat")) ∉ fwdEntries symD cwaD ∧
    rawLookupLast "alpha" cwaRaw = none ∧
    rawLookupLast "alpha" symRaw = some "alpha" ∧
    ("alpha", SpecItem.cmd .noArgs (some "alpha")) ∈ fwdEntries symD cwaD ∧
    ("zzz", SpecItem.cmd .noArgs (some "x")) ∉ fwdEntries symD cwaD := by
  have h1 := (C2_precedence "hat").1 1 "hat" (by decide) (by decide)
  have h2 := (C2_precedence "alpha").2.1 (by decide) "alpha" (by decide)
  have h3 := (C2_precedence "zzz").2.2 (by decide) (by decide) (by decide) (by decide)
    (SpecItem.cmd .noArgs (some "x"))
  exact ⟨by decide, by decide, h1.1, h1.2, by decide, by decide, h2, h3⟩

/-- C3 counterexample: the raw backend outputs `"x"` and `"x "` differ
only in trailing whitespace (so they are not character-identical), yet
both `run_tylax` and `run_pandoc` strip their captured stdout before the
harness compares, and the harness reports MATCH — refuting the claim that
any divergence, including trailing whitespace, is reported as a
mismatch. -/
theorem C3_counterexample :
    compare_single (.exited 0 "x" "") (.exited 0 "x " "") = true ∧
    ("x" : String) ≠ "x " :=
  ⟨by decide, by decide⟩

/-- C3 amended: for successful runs the harness reports a match exactly
when the two raw outputs agree after stripping leading/trailing
whitespace; in particular a divergence consisting only of appended
whitespace is reported as a match. -/
theorem C3_amended (t p w : String) :
    (compare_single (.exited 0 t "") (.exited 0 p "") = true ↔
      pyStrip t = pyStrip p) ∧
    (w.data.all isPyWs = true →
      compare_single (.exited 0 t "") (.exited 0 (t ++ w) "") = true) := by
  have hpan : ∀ u : String, run_pandoc (.exited 0 u "") = pyStrip u := fun u => rfl
  constructor
  · show (run_tylax _ == run_pandoc _) = true ↔ _
    rw [show run_tylax (.exited 0 t "") = pyStrip t from rfl, hpan p]
    exact beq_iff_eq
  · intro hw
    show (run_tylax _ == run_pandoc _) = true
    rw [show run_tylax (.exited 0 t "") = pyStrip t from rfl, hpan (t ++ w),
      pyStrip_append_ws t w hw]
    exact beq_self_eq_true _

/-- C3 witness: the amended match behaviour at the concrete pair
`("x", "x" ++ " ")`. -/
theorem C3_witness :
    (" " : String).data.all isPyWs = true ∧
    compare_single (.exited 0 "x" "") (.exited 0 ("x" ++ " ") "") = true :=
  ⟨by decide, (C3_amended "x" "x" " ").2 (by decide)⟩

set_option maxRecDepth 8192 in
/-- C4 counterexample: the structural entries are NOT appended after all
sorted catalog-derived entries.  The emitted insert sequence is the sorted
symbol block, then the two structural inserts, then the sorted arity
block — and the catalog-derived `frac` arity entry (from `("frac", 2)` in
the arity dict) lies in the block FOLLOWING the structural inserts. -/
theorem C4_counterexample :
    fwdEntries symD cwaD =
      symEntries symD cwaD ++ [tyEntry, alignedEntry] ++ arityEntries cwaD ∧
    ("frac", SpecItem.cmd (.fixedLen 2) none) ∈ arityEntries cwaD ∧
    ("frac", 2) ∈ cwaD := by
  refine ⟨rfl, ?_, ?_⟩
  · exact mem_arityEntries_iff.mpr ⟨2, rfl, mem_pyDict_iff.mpr (by decide), by decide⟩
  · exact mem_pyDict_iff.mpr (by decide)

/-- C4 amended: each catalog-derived block of the emitted insert sequence
is iterated in lexicographic key order — the zero-argument symbol block
first, then the structural `typstcite` and `aligned` inserts in that
fixed order, then the arity block; and in the final map (later insert
wins) the structural entries are never overridden by any catalog entry:
the arity loop skips `typstcite`, no embedded arity key is `aligned`, and
all symbol inserts precede the structural inserts. -/
theorem C4_amended (S : List (String × String)) :
    List.Pairwise keyLE (symEntries S cwaD) ∧
    List.Pairwise keyLE (arityEntries cwaD) ∧
    fwdEntries S cwaD =
      symEntries S cwaD ++ [tyEntry, alignedEntry] ++ arityEntries cwaD ∧
    rawLookupLast "typstcite" (fwdEntries S cwaD) = some tyEntry.2 ∧
    rawLookupLast "aligned" (fwdEntries S cwaD) = some alignedEntry.2 := by
  have hsym : List.Pairwise keyLE (symEntries S cwaD) := by
    apply pairwise_keyLE_filterMap ?_ (sortByKey_sorted S)
    intro p q hq
    by_cases h1 : p.1 = "" ∨ p.2 = ""
    · rw [if_pos h1] at hq
      cases hq
    · rw [if_neg h1] at hq
      by_cases h2 : containsKey p.1 cwaD = true
      · rw [if_pos h2] at hq
        cases hq
      · rw [if_neg h2] at hq
        injection hq with hq
        rw [← hq]
  have harity : List.Pairwise keyLE (arityEntries cwaD) := by
    apply pairwise_keyLE_filterMap ?_ (sortByKey_sorted cwaD)
    intro p q hq
    by_cases h1 : p.1 = "typstcite"
    · rw [if_pos h1] at hq
      cases hq
    · rw [if_neg h1] at hq
      injection hq with hq
      rw [← hq]
  have hassoc : fwdEntries S cwaD =
      symEntries S cwaD ++ ([tyEntry, alignedEntry] ++ arityEntries cwaD) := by
    simp [fwdEntries, List.append_assoc]
  have harityTyNone : rawLookupLast "typstcite" (arityEntries cwaD) = none := by
    refine rawLookupLast_eq_none (fun q hq => ?_)
    obtain ⟨k', _, _, hne⟩ :=
      mem_arityEntries_iff.mp (show (q.1, q.2) ∈ arityEntries cwaD from hq)
    exact hne
  have harityAlNone : rawLookupLast "aligned" (arityEntries cwaD) = none := by
    refine rawLookupLast_eq_none (fun q hq he => ?_)
    obtain ⟨k', _, hmem, _⟩ :=
      mem_arityEntries_iff.mp (show (q.1, q.2) ∈ arityEntries cwaD from hq)
    have hraw : rawLookupLast q.1 cwaRaw = some k' := mem_pyDict_iff.mp hmem
    rw [he, cwaRaw_no_aligned] at hraw
    cases hraw
  refine ⟨hsym, harity, rfl, ?_, ?_⟩
  · rw [hassoc, rawLookupLast_append, rawLookupLast_append, harityTyNone,
      Option.elim_none,
      show rawLookupLast "typstcite" [tyEntry, alignedEntry] = some tyEntry.2
        from by decide,
      Option.elim_some]
  · rw [hassoc, rawLookupLast_append, rawLookupLast_append, harityAlNone,
      Option.elim_none,
      show rawLookupLast "aligned" [tyEntry, alignedEntry] = some alignedEntry.2
        from by decide,
      Option.elim_some]

/-- C5 counterexample: an external source path that exists but cannot be
read is not degraded to zero merged entries — the `open` call raises an
OSError that `main` never catches, so compilation aborts before writing
any output, refuting the claim that this path never aborts. -/
theorem C5_counterexample :
    importStep (some .unreadable) symD =
      .error "unhandled OSError while reading the external source" := rfl

/-- C5 amended: with no argument or a missing source, the import is
skipped silently (nothing reported) and compilation proceeds with the
baseline; a readable source yielding zero extracted pairs reports zero
merged entries and leaves the baseline exactly unchanged; an existing but
unreadable source raises an unhandled error and aborts compilation. -/
theorem C5_amended (b : List (String × String)) (c : String)
    (hc : extractedPairs c.data = []) :
    importStep none b = .ok (b, none) ∧
    importStep (some .missing) b = .ok (b, none) ∧
    importStep (some (.readable c)) b = .ok (b, some 0) ∧
    ∀ r, importStep (some .unreadable) b ≠ .ok r := by
  refine ⟨rfl, rfl, ?_, fun r h => Except.noConfusion h⟩
  have hparse : parse_map_ts c = [] := by
    unfold parse_map_ts
    rw [hc]
    rfl
  show Except.ok (pyUpdate b (parse_map_ts c), some (parse_map_ts c).length) = _
  rw [hparse]
  rfl

/-- C5 witness: the amended import behaviour at a concrete document with
no pattern matches and a concrete one-entry baseline. -/
theorem C5_witness :
    extractedPairs "no pairs here".data = [] ∧
    importStep (some (.readable "no pairs here")) [("alpha", "alpha")] =
      .ok ([("alpha", "alpha")], some 0) :=
  ⟨by decide,
    (C5_amended [("alpha", "alpha")] "no pairs here" (by decide)).2.2.1⟩

/-- C6: compilation is a pure function of catalog contents.  Two runs over
catalogs that are equal as Python dicts — the same key-value bindings,
whatever the insertion order — emit byte-identical output text, because
every block is sorted by key before emission and the formatting is
fixed. -/
theorem C6_determinism (s₁ s₂ : List (String × String)) (a₁ a₂ : List (String × Nat))
    (r₁ r₂ : List (String × String))
    (hs : s₁.Perm s₂) (ha : a₁.Perm a₂) (hr : r₁.Perm r₂)
    (hsn : (s₁.map Prod.fst).Nodup) (han : (a₁.map Prod.fst).Nodup)
    (hrn : (r₁.map Prod.fst).Nodup) :
    generateRustCode s₁ a₁ r₁ = generateRustCode s₂ a₂ r₂ := by
  have hs' : sortByKey s₁ = sortByKey s₂ := sortByKey_eq_of_perm hs hsn
  have ha' : sortByKey a₁ = sortByKey a₂ := sortByKey_eq_of_perm ha han
  have hr' : sortByKey r₁ = sortByKey r₂ := sortByKey_eq_of_perm hr hrn
  have hsym : symEntries s₁ a₁ = symEntries s₂ a₂ := by
    unfold symEntries
    rw [hs']
    exact List.filterMap_congr (fun p _ => by rw [containsKey_perm ha p.1])
  have harity : arityEntries a₁ = arityEntries a₂ := by
    unfold arityEntries
    rw [ha']
  have hrev : reverseEntries r₁ = reverseEntries r₂ := by
    unfold reverseEntries
    rw [hr']
  unfold generateRustCode
  rw [hsym, harity, hrev]

/-- C6 witness: two insertion orders of the same two-entry symbol catalog
(with fixed arity and reverse catalogs) emit identical output text. -/
theorem C6_witness :
    ([("b", "B"), ("a", "A")] : List (String × String)).Perm
      [("a", "A"), ("b", "B")] ∧
    generateRustCode [("b", "B"), ("a", "A")] [("frac", 2)] [("sum", "sum")] =
      generateRustCode [("a", "A"), ("b", "B")] [("frac", 2)] [("sum", "sum")] := by
  have hp : ([("b", "B"), ("a", "A")] : List (String × String)).Perm
      [("a", "A"), ("b", "B")] := List.Perm.swap _ _ _
  exact ⟨hp, C6_determinism _ _ _ _ _ _ hp (List.Perm.refl _) (List.Perm.refl _)
    (by decide) (by decide) (by decide)⟩

/-- C7: escaping is total and round-trips.  For every token, the emitted
Rust string literal (quote, escaped body, quote) re-parses under Rust
string-literal lexical rules to exactly the original token value —
backslashes and double quotes survive. -/
theorem C7_escape_roundtrip (s : String) :
    parseRustStringLit (rustStrLit s).data = some s.data := by
  have hd : (rustStrLit s).data = '"' :: (escape_rust_string s.data ++ ['"']) := by
    show ("\"" ++ escS s ++ "\"").data = _
    rw [String.data_append, String.data_append]
    rfl
  rw [hd, parseRustStringLit.eq_def]
  simp [litBody_escape s.data]

/-- C8 counterexample: a non-zero process exit of the translator backend
is NOT converted into a literal error string — `run_tylax` never inspects
the exit code and returns the stripped standard output unchanged, which
need not start with `"Error"`. -/
theorem C8_counterexample :
    run_tylax (.exited 1 "boom" "fail") = "boom" ∧
    pyStartsWith "boom" "Error" = false :=
  ⟨by decide, by decide⟩

/-- C8 amended: spawn failures and timeouts are converted into literal
error strings by both backends, and a non-zero exit is converted only by
the reference backend; the translator backend returns its stripped
standard output whatever the exit code.  Both embeddings are total
functions of the outcome, so no single backend failure aborts the
harness. -/
theorem C8_amended (m out err : String) (code : Int) (hc : code ≠ 0) :
    run_tylax (.spawnFailure m) = "Error: " ++ m ∧
    run_tylax (.timedOut m) = "Error: " ++ m ∧
    run_tylax (.exited code out err) = pyStrip out ∧
    run_pandoc (.spawnFailure m) = "Error: Pandoc not installed" ∧
    run_pandoc (.timedOut m) = "Error: " ++ m ∧
    run_pandoc (.exited code out err) = "Error: " ++ err ∧
    run_pandoc (.exited 0 out err) = pyStrip out := by
  refine ⟨rfl, rfl, rfl, rfl, rfl, ?_, rfl⟩
  show (if code = 0 then pyStrip out else "Error: " ++ err) = _
  rw [if_neg hc]

/-- C8 witness: the amended backend classification at concrete outcomes
with exit code 1. -/
theorem C8_witness :
    (1 : Int) ≠ 0 ∧
    run_tylax (.exited 1 "boom" "fail") = pyStrip "boom" ∧
    run_pandoc (.exited 1 "boom" "fail") = "Error: " ++ "fail" ∧
    run_tylax (.spawnFailure "spawn failed") = "Error: " ++ "spawn failed" := by
  have h := C8_amended "spawn failed" "boom" "fail" 1 (by decide)
  exact ⟨by decide, h.2.2.1, h.2.2.2.2.2.1, h.1⟩

/-- C9: silent filtering of empty tokens is total.  Whatever the
(importer-extended) symbol catalog and the reverse catalog contain, every
entry emitted into the forward table has a non-empty name and a non-empty
alias token (when an alias is present), and every emitted reverse-map
entry has non-empty tokens on both sides. -/
theorem C9_empty_filtering (S R : List (String × String)) :
    (fwdEntries S cwaD).all entryTokensNonempty = true ∧
    (reverseEntries R).all revTokensNonempty = true := by
  constructor
  · rw [List.all_eq_true]
    intro e he
    obtain ⟨n, it⟩ := e
    rcases mem_fwdEntries_iff.mp he with hsym | hty | hal | har
    · obtain ⟨a, hit, _, hc, _⟩ := mem_symEntries_iff.mp hsym
      push_neg at hc
      subst hit
      simp [entryTokensNonempty, aliasOf, hc.1, hc.2]
    · rw [hty]
      decide
    · rw [hal]
      decide
    · obtain ⟨k, hit, hmem, _⟩ := mem_arityEntries_iff.mp har
      have hkey : (n, k) ∈ cwaRaw := mem_of_rawLookupLast (mem_pyDict_iff.mp hmem)
      have hne : n ≠ "" := by
        have h := List.all_eq_true.mp cwaRaw_keys_nonempty _ hkey
        simpa using h
      subst hit
      simp [entryTokensNonempty, aliasOf, hne]
  · rw [List.all_eq_true]
    intro p hp
    obtain ⟨_, hc⟩ := mem_reverseEntries_iff.mp hp
    push_neg at hc
    simp [revTokensNonempty, hc.1, hc.2]

/-- C10 counterexample: over the document `['k','a'] ['k','']` the same
pattern extracts two pairs with the same key `k`, but the later pair has
an empty value and is discarded by the `if key and value` guard instead of
overwriting — the result still maps `k` to `"a"`, refuting unconditional
last-write-wins over extracted pairs. -/
theorem C10_counterexample :
    extractedPairs "[\x27k\x27,\x27a\x27] [\x27k\x27,\x27\x27]".data =
      [("k", "a"), ("k", "")] ∧
    parse_map_ts "[\x27k\x27,\x27a\x27] [\x27k\x27,\x27\x27]" = [("k", "a")] :=
  ⟨by decide, by decide⟩

/-- C10 amended: the importer applies both extraction patterns, in list
order, to the whole document; extracted pairs with an empty key or value
are discarded; among the kept pairs the later one overwrites the earlier
(pattern order, then document order), so the result is the key-unique
dict of the kept pairs under last-write-wins. -/
theorem C10_amended (doc : String) :
    extractedPairs doc.data =
      (findAllMatches '\x27' doc.data ++ findAllMatches '"' doc.data).map
        (fun p => (String.mk p.1, String.mk p.2)) ∧
    parse_map_ts doc =
      pyDict ((extractedPairs doc.data).filter
        (fun p => !(p.1 == "") && !(p.2 == ""))) ∧
    ((parse_map_ts doc).map Prod.fst).Nodup ∧
    ∀ k, rawLookupLast k (parse_map_ts doc) =
      rawLookupLast k ((extractedPairs doc.data).filter
        (fun p => !(p.1 == "") && !(p.2 == ""))) := by
  have hdict : parse_map_ts doc =
      pyDict ((extractedPairs doc.data).filter
        (fun p => !(p.1 == "") && !(p.2 == ""))) := by
    unfold parse_map_ts
    rw [foldl_guard_eq_pyUpdate]
    rfl
  refine ⟨rfl, hdict, ?_, fun k => ?_⟩
  · rw [hdict]
    exact pyDict_nodupKeys _
  · rw [hdict]
    exact rawLookupLast_pyDict k _
